import Mathlib

/-!
Shallow embedding of `skmultilearn/base.py`.

The file under verification defines `MLClassifierBase` (an abstract multi-label
classifier contract with helper routines over sparse binary label matrices and
scikit-learn style parameter introspection) and `RepeatClassifier` (a degenerate
concrete estimator meant to repeat the first training label row).

Modelling conventions:
- A sparse matrix is modelled by its dense list of rows (`SparseMatrix`); the
  format conversions `tocsr`, `tocsc`, `todense` preserve the entries, so they
  are content-preserving here.
- Python exceptions are modelled with `Except String`; a Python `None` result
  is modelled with `Option`.
- Dynamically typed Python values that flow through the parameter dictionary
  are modelled by `PyVal`; an inner estimator is `PyVal.est has_gp params`,
  where `has_gp` records whether it exposes a `get_params` capability and
  `params` is what that capability would return.
- The source is Python 2 era code (it uses `xrange`); evaluation follows
  Python 2 semantics.
- Source lines that crash are embedded as the exception they raise at the
  point they raise it, with the state updates that were not yet reached left
  unperformed, matching Python evaluation order.
-/

/-- Sparse binary matrix, modelled by its list of rows.  Row count and column
count are carried by the row list itself. -/
structure SparseMatrix where
  rows : List (List Int)
deriving DecidableEq, Repr

/-- Format conversion to compressed sparse row form; content preserving. -/
def SparseMatrix.tocsr (y : SparseMatrix) : SparseMatrix := y

/-- Format conversion to compressed sparse column form; content preserving. -/
def SparseMatrix.tocsc (y : SparseMatrix) : SparseMatrix := y

/-- Densification; yields the list of rows. -/
def SparseMatrix.todense (y : SparseMatrix) : List (List Int) := y.rows

/-- Dynamically typed Python value as used by the parameter dictionary.  An
inner estimator is `est has_gp params`: `has_gp` says whether it has a
`get_params` method and `params` is that method's result. -/
inductive PyVal : Type where
  | none : PyVal
  | bool : Bool → PyVal
  | int : Int → PyVal
  | str : String → PyVal
  | est : Bool → List (String × PyVal) → PyVal

/-- Python `hasattr(obj, "get_params")` for the values that can sit in the
`classifier` slot: only an estimator built with the capability has it. -/
def hasattr_get_params : PyVal → Bool
  | PyVal.est b _ => b
  | _ => false

/-- State of `MLClassifierBase`: the inner estimator reference and the
`require_dense` flag, both set by `__init__`. -/
structure MLClassifierBase where
  classifier : PyVal
  require_dense : PyVal

/-- Constructor `MLClassifierBase.__init__(classifier, require_dense)`; the
source defaults are `classifier=None, require_dense=False`. -/
def MLClassifierBase.init (classifier : PyVal) (require_dense : PyVal) : MLClassifierBase :=
  ⟨classifier, require_dense⟩

/-- Row selection `rs[subset, :]` of scipy fancy indexing: each index is looked
up in order; an out-of-range index raises, modelled by `Option.none`. -/
def selectRows : List (List Int) → List Nat → Option (List (List Int))
  | _, [] => some []
  | rs, i :: is =>
    match rs.get? i, selectRows rs is with
    | some r, some rest => some (r :: rest)
    | _, _ => Option.none

/-- Entry selection `r[subset]` within a single row, in the order given. -/
def selectEntries : List Int → List Nat → Option (List Int)
  | _, [] => some []
  | r, j :: js =>
    match r.get? j, selectEntries r js with
    | some x, some rest => some (x :: rest)
    | _, _ => Option.none

/-- Column selection `rs[:, subset]`: every row keeps exactly the entries at
the subset indices, in the order given. -/
def selectCols : List (List Int) → List Nat → Option (List (List Int))
  | [], _ => some []
  | r :: rs, js =>
    match selectEntries r js, selectCols rs js with
    | some r2, some rest => some (r2 :: rest)
    | _, _ => Option.none

/-- Embedding of `MLClassifierBase.generate_data_subset(self, y, subset, axis)`
(`self` is unused by the source).  Source:
`if axis == 1: return_data = y.tocsc()[:, subset]`
`elif axis == 0: return_data = y.tocsr()[subset, :]`
and `return_data` starts as `None`, which is returned for any other axis. -/
def MLClassifierBase.generate_data_subset (y : SparseMatrix) (subset : List Nat)
    (axis : Int) : Except String (Option SparseMatrix) :=
  if axis = 1 then
    match selectCols (SparseMatrix.tocsc y).rows subset with
    | some rs => Except.ok (some (SparseMatrix.mk rs))
    | Option.none => Except.error "IndexError: column index out of bounds"
  else if axis = 0 then
    match selectRows (SparseMatrix.tocsr y).rows subset with
    | some rs => Except.ok (some (SparseMatrix.mk rs))
    | Option.none => Except.error "IndexError: row index out of bounds"
  else
    Except.ok Option.none

/-- The entry `t[0,0]` of each densified row `t`, as in the comprehension of
`ensure_1d`; a row with no entry raises, modelled by `Option.none`. -/
def firstOfEachRow : List (List Int) → Option (List Int)
  | [] => some []
  | r :: rs =>
    match r.get? 0, firstOfEachRow rs with
    | some x, some rest => some (x :: rest)
    | _, _ => Option.none

/-- Embedding of `MLClassifierBase.ensure_1d(self, y)`:
`return [t[0,0] for t in y.todense()]`. -/
def MLClassifierBase.ensure_1d (y : SparseMatrix) : Except String (List Int) :=
  match firstOfEachRow (SparseMatrix.todense y) with
  | some l => Except.ok l
  | Option.none => Except.error "IndexError: index 0 is out of bounds"

/-- Embedding of the abstract `MLClassifierBase.fit`: the body is a single
`raise NotImplementedError` statement, so no state is read or written. -/
def MLClassifierBase.fit (self : MLClassifierBase) (X y : SparseMatrix) :
    Except String MLClassifierBase :=
  Except.error "NotImplementedError: MLClassifierBase::fit()"

/-- Embedding of the abstract `MLClassifierBase.predict`: the body is a single
`raise NotImplementedError` statement, so no state is read or written. -/
def MLClassifierBase.predict (self : MLClassifierBase) (X : SparseMatrix) :
    Except String SparseMatrix :=
  Except.error "NotImplementedError: MLClassifierBase::predict()"

/-- Embedding of `MLClassifierBase.get_params(self, deep=True)`.  The source
builds `out` with the two own parameters, then, when `deep` holds and the
inner estimator has a `get_params` attribute, evaluates
`deep_items = value.get_params().items()` — but no variable `value` is in
scope there (nor is `key` in the following line), so that branch raises
`NameError` before anything is appended. -/
def MLClassifierBase.get_params (self : MLClassifierBase) (deep : Bool) :
    Except String (List (String × PyVal)) :=
  let out := [("classifier", self.classifier), ("require_dense", self.require_dense)]
  if deep && hasattr_get_params self.classifier then
    Except.error "NameError: name value is not defined"
  else
    Except.ok out

/-- Embedding of `MLClassifierBase.set_params(self, **parameters)`.  With an
empty dictionary the source returns `self`.  Otherwise the loop body executes
`self.setattr(parameter, value)` — instances have no `setattr` method (the
builtin is the global `setattr(obj, name, value)`), so the first iteration
raises `AttributeError` and no attribute is ever assigned. -/
def MLClassifierBase.set_params (self : MLClassifierBase)
    (parameters : List (String × PyVal)) : Except String MLClassifierBase :=
  match parameters with
  | [] => Except.ok self
  | _ :: _ => Except.error "AttributeError: MLClassifierBase object has no attribute setattr"

/-- State of `RepeatClassifier`: the inherited base attributes plus the
`value_to_repeat` attribute, absent (`Option.none`) until it is assigned. -/
structure RepeatClassifier where
  classifier : PyVal
  require_dense : PyVal
  value_to_repeat : Option (List Int)

/-- Constructor `RepeatClassifier.__init__(self, value_to_repeat=None)`: the
body only calls `super().__init__()` with its defaults; the argument is never
stored, so `value_to_repeat` the attribute does not exist yet. -/
def RepeatClassifier.init (value_to_repeat : PyVal) : RepeatClassifier :=
  ⟨PyVal.none, PyVal.bool false, Option.none⟩

/-- Embedding of `RepeatClassifier.fit(self, X, y)`.  The first statement is
`self.value_to_repeat = copy.copy(y.tocsr[0,:])`: `y.tocsr` without calling
parentheses is a bound method object, and subscripting it raises `TypeError`
before any assignment happens, so `fit` always raises with state unchanged
(the later `np.full(y)` line, itself also a crash, is never reached). -/
def RepeatClassifier.fit (self : RepeatClassifier) (X y : SparseMatrix) :
    Except String RepeatClassifier :=
  Except.error "TypeError: method object is not subscriptable"

/-- Heap of numpy row arrays: location `l` holds `mem[l]`.  Used to express
that `predict` returns fresh, independent copies rather than aliases. -/
structure Store where
  mem : List (List Int)

/-- Allocate a fresh array holding `v`; returns the new store and location. -/
def Store.alloc (s : Store) (v : List Int) : Store × Nat :=
  (⟨s.mem ++ [v]⟩, s.mem.length)

/-- Read the array at a location. -/
def Store.read (s : Store) (l : Nat) : List Int :=
  s.mem.getD l []

/-- Overwrite the array at a location (an in-place numpy row mutation). -/
def Store.write (s : Store) (l : Nat) (v : List Int) : Store :=
  ⟨s.mem.set l v⟩

/-- Allocate `n` independent copies of `v` (one `np.copy` per iteration of the
comprehension), returning the locations in order. -/
def allocCopies (s : Store) (v : List Int) : Nat → Store × List Nat
  | 0 => (s, [])
  | Nat.succ n =>
    let p := Store.alloc s v
    let q := allocCopies p.1 v n
    (q.1, p.2 :: q.2)

/-- Embedding of `RepeatClassifier.predict(self, X)`:
`return np.array([np.copy(self.value_to_repeat) for x in xrange(len(X))])`.
Looking up `self.value_to_repeat` raises `AttributeError` when the attribute
was never assigned; otherwise one fresh copy of it is allocated per sample of
`X` (`len(X)` is the row count). -/
def RepeatClassifier.predict (self : RepeatClassifier) (X : SparseMatrix)
    (s : Store) : Except String (Store × List Nat) :=
  match self.value_to_repeat with
  | Option.none =>
    Except.error "AttributeError: RepeatClassifier object has no attribute value_to_repeat"
  | some v => Except.ok (allocCopies s v X.rows.length)

/-! Helper lemmas about list lookup and the slicing helpers. -/

theorem get?_eq_some_getD {α : Type} :
    ∀ (l : List α) (n : Nat) (d : α), n < l.length → l.get? n = some (l.getD n d)
  | [], n, _, h => absurd h (Nat.not_lt_zero n)
  | _ :: _, 0, _, _ => rfl
  | _ :: l, n + 1, d, h => get?_eq_some_getD l n d (Nat.lt_of_succ_lt_succ h)

theorem selectRows_eq (rs : List (List Int)) :
    ∀ (S : List Nat), (∀ i ∈ S, i < rs.length) →
      selectRows rs S = some (S.map (fun i => rs.getD i []))
  | [], _ => rfl
  | a :: t, h => by
    have ha : a < rs.length := h a (List.mem_cons_self a t)
    have ht := selectRows_eq rs t (fun i hi => h i (List.mem_cons_of_mem a hi))
    simp only [selectRows, ht, get?_eq_some_getD rs a [] ha, List.map_cons]

theorem selectEntries_eq (r : List Int) :
    ∀ (S : List Nat), (∀ j ∈ S, j < r.length) →
      selectEntries r S = some (S.map (fun j => r.getD j 0))
  | [], _ => rfl
  | a :: t, h => by
    have ha : a < r.length := h a (List.mem_cons_self a t)
    have ht := selectEntries_eq r t (fun j hj => h j (List.mem_cons_of_mem a hj))
    simp only [selectEntries, ht, get?_eq_some_getD r a 0 ha, List.map_cons]

theorem selectCols_eq :
    ∀ (rs : List (List Int)) (S : List Nat), (∀ j ∈ S, ∀ r ∈ rs, j < r.length) →
      selectCols rs S = some (rs.map (fun r => S.map (fun j => r.getD j 0)))
  | [], _, _ => rfl
  | r :: rs, S, h => by
    have hr : ∀ j ∈ S, j < r.length :=
      fun j hj => h j hj r (List.mem_cons_self r rs)
    have hrs := selectCols_eq rs S
      (fun j hj r2 hr2 => h j hj r2 (List.mem_cons_of_mem r hr2))
    simp only [selectCols, hrs, selectEntries_eq r S hr, List.map_cons]

theorem firstOfEachRow_eq :
    ∀ (rs : List (List Int)), (∀ r ∈ rs, 0 < r.length) →
      firstOfEachRow rs = some (rs.map (fun r => r.getD 0 0))
  | [], _ => rfl
  | r :: rs, h => by
    have hr : 0 < r.length := h r (List.mem_cons_self r rs)
    have hrs := firstOfEachRow_eq rs (fun r2 h2 => h r2 (List.mem_cons_of_mem r h2))
    simp only [firstOfEachRow, hrs, get?_eq_some_getD r 0 0 hr, List.map_cons]

/-! Helper lemmas about the store and `allocCopies`. -/

theorem allocCopies_spec (v : List Int) :
    ∀ (n : Nat) (s : Store),
      (allocCopies s v n).1.mem = s.mem ++ List.replicate n v ∧
      (allocCopies s v n).2 = List.range' s.mem.length n
  | 0, s => by simp [allocCopies]
  | Nat.succ n, s => by
    have ih := allocCopies_spec v n ⟨s.mem ++ [v]⟩
    constructor
    · show (allocCopies ⟨s.mem ++ [v]⟩ v n).1.mem = _
      rw [ih.1]
      simp [List.replicate_succ]
    · show s.mem.length :: (allocCopies ⟨s.mem ++ [v]⟩ v n).2 = _
      rw [ih.2]
      show _ = List.range' s.mem.length (n + 1)
      rw [List.range'_succ]
      simp

theorem getD_replicate_lt (v : List Int) :
    ∀ (n k : Nat), k < n → (List.replicate n v).getD k [] = v
  | 0, k, h => absurd h (Nat.not_lt_zero k)
  | n + 1, 0, _ => rfl
  | n + 1, k + 1, h => getD_replicate_lt v n k (Nat.lt_of_succ_lt_succ h)

theorem getD_append_left_replicate (v : List Int) (n k : Nat) (h : k < n) :
    ∀ (pre : List (List Int)),
      (pre ++ List.replicate n v).getD (pre.length + k) [] = v
  | [] => by simpa using getD_replicate_lt v n k h
  | r :: pre => by
    show (r :: (pre ++ List.replicate n v)).getD (pre.length + 1 + k) [] = v
    have : pre.length + 1 + k = (pre.length + k) + 1 := by omega
    rw [this]
    show (pre ++ List.replicate n v).getD (pre.length + k) [] = v
    exact getD_append_left_replicate v n k h pre

theorem getD_set_ne {α : Type} (d w : α) :
    ∀ (xs : List α) (i j : Nat), i ≠ j → (xs.set i w).getD j d = xs.getD j d
  | [], _, _, _ => by simp
  | _ :: _, 0, 0, h => absurd rfl h
  | _ :: _, 0, _ + 1, _ => rfl
  | _ :: _, _ + 1, 0, _ => rfl
  | _ :: xs, i + 1, j + 1, h =>
    getD_set_ne d w xs i j (fun e => h (by rw [e]))

theorem mem_range'_iff : ∀ (n a m : Nat), m ∈ List.range' a n ↔ ∃ k, k < n ∧ m = a + k := by
  intro n
  induction n with
  | zero => intro a m; simp [List.range']
  | succ n ih =>
    intro a m
    rw [List.range'_succ]
    simp only [List.mem_cons, ih (a + 1)]
    constructor
    · rintro (rfl | ⟨k, hk, rfl⟩)
      · exact ⟨0, Nat.succ_pos n, rfl⟩
      · exact ⟨k + 1, Nat.succ_lt_succ hk, by omega⟩
    · rintro ⟨k, hk, rfl⟩
      cases k with
      | zero => exact Or.inl rfl
      | succ k => exact Or.inr ⟨k, Nat.lt_of_succ_lt_succ hk, by omega⟩

theorem nodup_range'_own : ∀ (n a : Nat), (List.range' a n).Nodup := by
  intro n
  induction n with
  | zero => intro a; simp [List.range']
  | succ n ih =>
    intro a
    rw [List.range'_succ]
    refine List.nodup_cons.mpr ⟨?_, ih (a + 1)⟩
    intro hmem
    rcases (mem_range'_iff n (a + 1) a).mp hmem with ⟨k, _, hk⟩
    omega

/-! Claim theorems. -/

/-- C1: the claim says `RepeatClassifier.fit(X, y).predict(X2)` returns
`len(X2)` copies of row 0 of `y`.  Evaluating the code: `fit` executes
`self.value_to_repeat = copy.copy(y.tocsr[0,:])`, which subscripts the bound
method `y.tocsr` instead of its call result, so `fit` raises `TypeError` for
every input and the chain can never reach `predict`. -/
theorem c1_fit_always_raises_type_error (self : RepeatClassifier) (X y : SparseMatrix) :
    RepeatClassifier.fit self X y =
      Except.error "TypeError: method object is not subscriptable" := rfl

/-- C2: the claim says `set_params` with at least one name/value pair assigns
each pair and returns `self`, and that with no pairs it returns `self`.
Evaluating the code: any nonempty parameter list makes the loop body call the
non-existent method `self.setattr`, raising `AttributeError` with nothing
assigned; the empty case does return `self` as claimed. -/
theorem c2_set_params_raises_on_any_pair (self : MLClassifierBase) (p : String × PyVal)
    (rest : List (String × PyVal)) :
    MLClassifierBase.set_params self (p :: rest) =
      Except.error "AttributeError: MLClassifierBase object has no attribute setattr" ∧
    MLClassifierBase.set_params self [] = Except.ok self :=
  ⟨rfl, rfl⟩

/-- C3: `generate_data_subset` with axis 0 returns exactly the rows of `y` at
the indices of `S` in the order given by `S`, and with axis 1 exactly the
columns of `y` at the indices of `S` in that order, both still as a sparse
matrix, whenever the indices are in range (an index subset of `y`). -/
theorem c3_generate_data_subset_rows_and_cols (y : SparseMatrix) (S : List Nat)
    (hrow : ∀ i ∈ S, i < y.rows.length)
    (hcol : ∀ j ∈ S, ∀ r ∈ y.rows, j < r.length) :
    MLClassifierBase.generate_data_subset y S 0 =
      Except.ok (some (SparseMatrix.mk (S.map (fun i => y.rows.getD i [])))) ∧
    MLClassifierBase.generate_data_subset y S 1 =
      Except.ok (some (SparseMatrix.mk
        (y.rows.map (fun r => S.map (fun j => r.getD j 0))))) := by
  constructor
  · simp [MLClassifierBase.generate_data_subset, SparseMatrix.tocsr,
      selectRows_eq y.rows S hrow]
  · simp [MLClassifierBase.generate_data_subset, SparseMatrix.tocsc,
      selectCols_eq y.rows S hcol]

/-- Witness for C3 at `y = [[1,0],[0,1],[1,1]]` and `S = [1,0]`: axis 0 gives
rows 1 and 0, axis 1 gives the two columns swapped. -/
theorem c3_witness :
    MLClassifierBase.generate_data_subset (SparseMatrix.mk [[1,0],[0,1],[1,1]]) [1,0] 0 =
      Except.ok (some (SparseMatrix.mk [[0,1],[1,0]])) ∧
    MLClassifierBase.generate_data_subset (SparseMatrix.mk [[1,0],[0,1],[1,1]]) [1,0] 1 =
      Except.ok (some (SparseMatrix.mk [[0,1],[1,0],[1,1]])) :=
  c3_generate_data_subset_rows_and_cols (SparseMatrix.mk [[1,0],[0,1],[1,1]]) [1,0]
    (by decide) (by decide)

/-- C4: the claim says that when the inner estimator exposes `get_params`,
`get_params(deep=True)` flattens the inner parameters into the result.
Evaluating the code: the deep branch reads the undefined variable `value`
(and `key`), so it raises `NameError` for every such classifier instead of
returning a mapping. -/
theorem c4_get_params_deep_raises_name_error (p : List (String × PyVal)) (r : PyVal) :
    MLClassifierBase.get_params (MLClassifierBase.mk (PyVal.est true p) r) true =
      Except.error "NameError: name value is not defined" := rfl

/-- C5: for every axis value other than 0 and 1, `generate_data_subset`
returns the Python `None` that `return_data` was initialised to, never a
matrix and never an error. -/
theorem c5_generate_data_subset_other_axis (y : SparseMatrix) (S : List Nat)
    (axis : Int) (h0 : axis ≠ 0) (h1 : axis ≠ 1) :
    MLClassifierBase.generate_data_subset y S axis = Except.ok Option.none := by
  unfold MLClassifierBase.generate_data_subset
  rw [if_neg h1, if_neg h0]

/-- Witness for C5 at axis 2. -/
theorem c5_witness :
    MLClassifierBase.generate_data_subset (SparseMatrix.mk [[1]]) [0] 2 =
      Except.ok Option.none :=
  c5_generate_data_subset_other_axis (SparseMatrix.mk [[1]]) [0] 2
    (by decide) (by decide)

/-- C6: invoking `fit` or `predict` directly on the abstract base type raises
`NotImplementedError` for every instance and every input; the error is the
whole outcome of the call (nothing is caught or rewrapped) and no state update
occurs, since the body is a single raise statement. -/
theorem c6_base_fit_predict_not_implemented (self : MLClassifierBase)
    (X y : SparseMatrix) :
    MLClassifierBase.fit self X y =
      Except.error "NotImplementedError: MLClassifierBase::fit()" ∧
    MLClassifierBase.predict self X =
      Except.error "NotImplementedError: MLClassifierBase::predict()" :=
  ⟨rfl, rfl⟩

/-- C7: on a base instance constructed with inner estimator `c` and flag `r`,
`get_params(deep=False)` returns exactly the two-entry mapping with keys
`classifier` and `require_dense` and nothing else. -/
theorem c7_get_params_shallow_exact (c r : PyVal) :
    MLClassifierBase.get_params (MLClassifierBase.init c r) false =
      Except.ok [("classifier", c), ("require_dense", r)] := rfl

/-- C8: on a one-column-wide label matrix (every row has exactly one entry),
`ensure_1d` returns the flat sequence whose i-th element is the single scalar
entry of row i, of length equal to the row count. -/
theorem c8_ensure_1d_single_column (y : SparseMatrix)
    (h : ∀ r ∈ y.rows, r.length = 1) :
    MLClassifierBase.ensure_1d y = Except.ok (y.rows.map (fun r => r.getD 0 0)) ∧
    (y.rows.map (fun r => r.getD 0 0)).length = y.rows.length := by
  have h0 : ∀ r ∈ y.rows, 0 < r.length := fun r hr => by
    rw [h r hr]; exact Nat.zero_lt_one
  constructor
  · simp [MLClassifierBase.ensure_1d, SparseMatrix.todense,
      firstOfEachRow_eq y.rows h0]
  · simp

/-- Witness for C8 at the 3-by-1 matrix `[[5],[0],[3]]`. -/
theorem c8_witness :
    MLClassifierBase.ensure_1d (SparseMatrix.mk [[5], [0], [3]]) =
      Except.ok [5, 0, 3] ∧
    ([5, 0, 3] : List Int).length = (SparseMatrix.mk [[5], [0], [3]]).rows.length :=
  c8_ensure_1d_single_column (SparseMatrix.mk [[5], [0], [3]]) (by decide)

/-- C9: on a `RepeatClassifier` whose stored row `value_to_repeat` is present
(the fitted state the claim assumes), `predict` returns one array location per
sample of `X`; the locations are pairwise distinct fresh allocations, each
holding a value copy of the stored row, so overwriting the array at any one
returned location leaves the array at every other returned location
unchanged. -/
theorem c9_predict_copy_independence (self : RepeatClassifier) (X : SparseMatrix)
    (s s2 : Store) (locs : List Nat) (v : List Int)
    (hv : self.value_to_repeat = some v)
    (hp : RepeatClassifier.predict self X s = Except.ok (s2, locs)) :
    locs.length = X.rows.length ∧
    locs.Nodup ∧
    (∀ l ∈ locs, Store.read s2 l = v) ∧
    (∀ i ∈ locs, ∀ j ∈ locs, i ≠ j → ∀ w,
      Store.read (Store.write s2 i w) j = Store.read s2 j) := by
  have hpred : RepeatClassifier.predict self X s =
      Except.ok (allocCopies s v X.rows.length) := by
    unfold RepeatClassifier.predict
    rw [hv]
  rw [hpred] at hp
  have h2 : allocCopies s v X.rows.length = (s2, locs) := by
    injection hp
  have hs2 : s2 = (allocCopies s v X.rows.length).1 := by rw [h2]
  have hlo : locs = (allocCopies s v X.rows.length).2 := by rw [h2]
  subst hs2
  subst hlo
  obtain ⟨hmem, hlocs⟩ := allocCopies_spec v X.rows.length s
  refine ⟨?_, ?_, ?_, ?_⟩
  · rw [hlocs]
    simp
  · rw [hlocs]
    exact nodup_range'_own _ _
  · intro l hl
    rw [hlocs] at hl
    rcases (mem_range'_iff _ _ _).mp hl with ⟨k, hk, rfl⟩
    show (allocCopies s v X.rows.length).1.mem.getD (s.mem.length + k) [] = v
    rw [hmem]
    exact getD_append_left_replicate v X.rows.length k hk s.mem
  · intro i _ j _ hij w
    exact getD_set_ne [] w (allocCopies s v X.rows.length).1.mem i j hij

/-- Witness for C9: stored row `[1,0]`, two samples; `predict` allocates the
two distinct locations 0 and 1, both reading back `[1,0]`, and a write to one
never shows up at the other. -/
theorem c9_witness :
    ([0, 1] : List Nat).length = (SparseMatrix.mk [[0], [0]]).rows.length ∧
    ([0, 1] : List Nat).Nodup ∧
    (∀ l ∈ ([0, 1] : List Nat), Store.read (Store.mk [[1, 0], [1, 0]]) l = [1, 0]) ∧
    (∀ i ∈ ([0, 1] : List Nat), ∀ j ∈ ([0, 1] : List Nat), i ≠ j → ∀ w,
      Store.read (Store.write (Store.mk [[1, 0], [1, 0]]) i w) j =
        Store.read (Store.mk [[1, 0], [1, 0]]) j) :=
  c9_predict_copy_independence
    (RepeatClassifier.mk PyVal.none (PyVal.bool false) (some [1, 0]))
    (SparseMatrix.mk [[0], [0]]) (Store.mk []) (Store.mk [[1, 0], [1, 0]])
    [0, 1] [1, 0] rfl rfl

/-- C10: `RepeatClassifier.__init__(value_to_repeat=v)` ignores `v` entirely:
for every argument the resulting instance has no `value_to_repeat` attribute
stored (untrained state) and carries only the inherited defaults
`classifier=None` and `require_dense=False`. -/
theorem c10_init_ignores_argument (v : PyVal) :
    RepeatClassifier.init v =
      RepeatClassifier.mk PyVal.none (PyVal.bool false) Option.none := rfl
